import Mathlib

/-!
# Verification of the TFCO example notebooks

A shallow embedding of the two example notebooks of the
`tensorflow_constrained_optimization` examples repository:

* the simulated-data recall-constrained notebook (`recall`,
  `average_hinge_loss`, the hand-written `ExampleProblem`), and
* the `Fairness_adult` notebook (`error_rate`, `positive_prediction_rate`,
  `tpr`, `_get_error_rate_and_constraints`, `_get_exp_error_rate_constraints`,
  the minibatch index collection of `training_generator`).

Machine floats are modelled over `ℚ` together with the IEEE non-finite
results that numpy division can produce (`NpFloat`); Python-level
exceptions are modelled with `Except PyError`.

The library functions called by the notebooks but not present in the
repository sources (`find_best_candidate_index`, the shape validation of
`ConstrainedMinimizationProblem`) are modelled from the specification text,
and are marked as such in their doc comments.
-/

/-- A Python-level exception, as observable by a caller of the notebook
functions.  `zeroDivisionError` is raised by CPython float division by zero;
`domainError` and `shapeMismatchError` are the error names used by the
specification (no code in the repository raises either). -/
inductive PyError where
  | zeroDivisionError
  | domainError
  | shapeMismatchError
deriving DecidableEq, Repr

/-- The result of a numpy floating-point computation: a finite value, an
infinity, or nan.  Finite values are modelled exactly over `ℚ`. -/
inductive NpFloat where
  | nan
  | inf
  | negInf
  | val (q : ℚ)
deriving DecidableEq, Repr

/-- numpy elementwise division of finite operands: `x / 0` is `nan` when
`x = 0`, and `±inf` otherwise (a `RuntimeWarning`, not an exception). -/
def npDiv (a b : ℚ) : NpFloat :=
  if b = 0 then (if a = 0 then .nan else if 0 < a then .inf else .negInf)
  else .val (a / b)

deriving instance DecidableEq for Except

/-- Subtraction of a numpy float from a finite scalar, propagating
non-finite values as IEEE arithmetic does. -/
def npSub (c : ℚ) : NpFloat → NpFloat
  | .nan => .nan
  | .inf => .negInf
  | .negInf => .inf
  | .val q => .val (c - q)

namespace Simulated

/-!
## The simulated-data notebook

`average_hinge_loss` and `recall` are the numpy metric functions of the
recall-constrained notebook; `ExampleProblem` is its hand-written
`ConstrainedMinimizationProblem`.
-/

/-- The signed labels `(labels * 2) - 1` (labels are 0/1). -/
def signedLabels (labels : List ℚ) : List ℚ :=
  labels.map (fun l => l * 2 - 1)

/-- The notebook metric `np.mean(np.maximum(0.0, 1.0 - signed_labels *
predictions))`: the sum of the hinge terms divided (in numpy) by the number
of examples. -/
def average_hinge_loss (labels predictions : List ℚ) : NpFloat :=
  let hinges := List.zipWith (fun s p => max 0 (1 - s * p))
    (signedLabels labels) predictions
  npDiv hinges.sum hinges.length

/-- The sum of `true_positives = labels * (predictions > 0)`:
the numerator of the recall metric of the notebook. -/
def truePositiveSum (labels predictions : List ℚ) : ℚ :=
  (List.zipWith (fun l p => l * (if 0 < p then 1 else 0)) labels predictions).sum

/-- The notebook's `recall`: `true_positive_count / positive_count` where
`positive_count = np.sum(labels)`.  numpy division: an empty positive slice
yields nan (with a warning), it does not raise. -/
def «recall» (labels predictions : List ℚ) : NpFloat :=
  npDiv (truePositiveSum labels predictions) labels.sum

/-- The `ExampleProblem.constraints` property: `recall_lower_bound - recall`
with the true (zero-one) recall
`sum(labels * (predictions > 0)) / sum(labels)`. -/
def ExampleProblem.constraints (labels predictions : List ℚ) (bound : ℚ) :
    NpFloat :=
  npSub bound (npDiv (truePositiveSum labels predictions) labels.sum)

/-- The numerator of the proxy recall used by
`ExampleProblem.proxy_constraints`: `sum(labels * minimum(1.0, predictions))`. -/
def proxyTruePositiveSum (labels predictions : List ℚ) : ℚ :=
  (List.zipWith (fun l p => l * min 1 p) labels predictions).sum

/-- The `ExampleProblem.proxy_constraints` property:
`recall_lower_bound - recall` with the hinge-relaxed recall
`sum(labels * minimum(1.0, predictions)) / sum(labels)`. -/
def ExampleProblem.proxy_constraints (labels predictions : List ℚ)
    (bound : ℚ) : NpFloat :=
  npSub bound (npDiv (proxyTruePositiveSum labels predictions) labels.sum)

/-- The one-element tensor returned by `ExampleProblem.constraints`, as a
vector of constraint values. -/
def ExampleProblem.constraintsVec (labels predictions : List ℚ) (bound : ℚ) :
    List NpFloat :=
  [ExampleProblem.constraints labels predictions bound]

/-- The result of `ExampleProblem.proxy_constraints` as a one-element
vector. -/
def ExampleProblem.proxyConstraintsVec (labels predictions : List ℚ)
    (bound : ℚ) : List NpFloat :=
  [ExampleProblem.proxy_constraints labels predictions bound]

end Simulated

namespace Candidates

/-!
## Candidate selection (modelled from the spec)

`find_best_candidate_index` lives in the library's `candidates.py`, which is
not part of this repository's sources; only its call sites appear in the
notebooks.  It is therefore modelled from the specification text.
-/

/-- Worst-case constraint violation of one snapshot (`np.amax` over its row
of the violations matrix). -/
def worstViolation : List ℚ → ℚ
  | [] => 0
  | h :: t => t.foldl max h

/-- The competition rank of index `i` under key function `key`: the number of
indices whose key is strictly smaller (so ties share a rank, "ascending"). -/
def rankOf (key : ℕ → ℚ) (n i : ℕ) : ℕ :=
  ((List.range n).filter (fun j => key j < key i)).length

/-- The feasibility key of a snapshot: its worst-case violation clamped at
zero, so that every snapshot whose constraints are all `≤ 0` shares the
minimal key and ties for the best feasibility rank. -/
def feasKey (violations : List (List ℚ)) (i : ℕ) : ℚ :=
  max 0 (worstViolation (violations.getD i []))

/-- Error of snapshot `i`. -/
def errKey (errors : List ℚ) (i : ℕ) : ℚ :=
  errors.getD i 0

/-- Combined rank of snapshot `i`: `max(error_rank, violation_rank)`. -/
def combinedRank (errors : List ℚ) (violations : List (List ℚ)) (i : ℕ) : ℕ :=
  max (rankOf (errKey errors) errors.length i)
    (rankOf (feasKey violations) errors.length i)

/-- The selection step: candidate `j` replaces the current best `b` when its
combined rank is strictly smaller, or equal with a strictly smaller error. -/
def pickBetter (errors : List ℚ) (violations : List (List ℚ)) (b j : ℕ) : ℕ :=
  if combinedRank errors violations j < combinedRank errors violations b
    then j
  else if combinedRank errors violations j = combinedRank errors violations b
      ∧ errKey errors j < errKey errors b
    then j
  else b

/-- Modelled from the spec: `find_best_candidate_index` ranks snapshots by
error (ascending) and by worst-case constraint violation (ascending, with
every snapshot whose constraints are all `≤ 0` tying for the best feasibility
rank), computes `max(error_rank, violation_rank)` per snapshot, and returns
the index minimizing this combined rank, tie-broken by lowest error (and by
lowest index among exact ties). -/
def find_best_candidate_index (errors : List ℚ)
    (violations : List (List ℚ)) : ℕ :=
  (List.range errors.length).foldl (pickBetter errors violations) 0

/-- Candidate `a` is at least as good as `b`: strictly smaller combined
rank, or equal combined rank and no larger error. -/
def LexLe (errors : List ℚ) (violations : List (List ℚ)) (a b : ℕ) : Prop :=
  combinedRank errors violations a < combinedRank errors violations b ∨
    (combinedRank errors violations a = combinedRank errors violations b ∧
      errKey errors a ≤ errKey errors b)

end Candidates

namespace Fairness

/-!
## The Fairness_adult notebook

Rows of the (preprocessed) dataframe carry a model prediction, a 0/1 label
and the values of the protected-attribute columns.  The metric functions
`error_rate`, `positive_prediction_rate` and `tpr` divide with Python
`float` division, which raises `ZeroDivisionError` on an empty denominator.
-/

/-- One row of the notebook's dataframe, with its `predictions` column
already attached: the prediction, the 0/1 label, and the values of the
protected-attribute columns (`gender_Female`, `gender_Male`, `race_White`,
`race_Black`). -/
structure Row where
  prediction : ℚ
  label : ℚ
  groups : List ℚ
deriving DecidableEq, Repr

/-- The numerator of `error_rate`:
`(np.multiply(signed_labels, predictions) <= 0).sum()` where
`signed_labels = (labels > 0) - (labels <= 0)`. -/
def errorNumerator (predictions labels : List ℚ) : ℚ :=
  (List.zipWith
    (fun p l => if (if 0 < l then (1 : ℚ) else -1) * p ≤ 0 then (1 : ℚ) else 0)
    predictions labels).sum

/-- The notebook's `error_rate(predictions, labels)`:
`float(numerator) / float(denominator)` with `denominator` the number of
rows, raising `ZeroDivisionError` on an empty dataframe. -/
def error_rate (predictions labels : List ℚ) : Except PyError ℚ :=
  if predictions.length = 0 then .error .zeroDivisionError
  else .ok (errorNumerator predictions labels / predictions.length)

/-- The notebook's `positive_prediction_rate(predictions, subset)`:
`sum((predictions > 0) * (subset > 0)) / sum(subset > 0)`, raising
`ZeroDivisionError` when the subset is empty. -/
def positive_prediction_rate (predictions subset : List ℚ) :
    Except PyError ℚ :=
  let numerator :=
    (List.zipWith
      (fun p s => (if 0 < p then (1 : ℚ) else 0) * (if 0 < s then 1 else 0))
      predictions subset).sum
  let denominator := (subset.filter (fun s => 0 < s)).length
  if denominator = 0 then .error .zeroDivisionError
  else .ok (numerator / denominator)

/-- The numerator of `tpr`: the count of rows whose prediction is `>= 0.0`
and whose label is `> 0.5`. -/
def tprNumerator (df : List Row) : ℕ :=
  (df.filter (fun r => 0 ≤ r.prediction ∧ 1/2 < r.label)).length

/-- The denominator of `tpr`: `sum(df[LABEL_COLUMN] > 0.5)`. -/
def tprDenominator (df : List Row) : ℕ :=
  (df.filter (fun r => 1/2 < r.label)).length

/-- The notebook's `tpr(df)`: `float(fp) / float(ln)`, raising
`ZeroDivisionError` when the dataframe has no positively-labeled row. -/
def tpr (df : List Row) : Except PyError ℚ :=
  if tprDenominator df = 0 then .error .zeroDivisionError
  else .ok ((tprNumerator df : ℚ) / (tprDenominator df : ℚ))

/-- The slice `df[df[protected_attribute] > 0.5]`: the rows of the `k`-th
protected group. -/
def groupSubset (df : List Row) (k : ℕ) : List Row :=
  df.filter (fun r => 1/2 < r.groups.getD k 0)

/-- The notebook's `_get_error_rate_and_constraints(df, tpr_max_diff)`:
the error rate together with the list
`[(overall_tpr - tpr_max_diff) - tpr(group) for group in protected groups]`,
with `numGroups` protected-attribute columns. -/
def get_error_rate_and_constraints (df : List Row) (numGroups : ℕ)
    (tpr_max_diff : ℚ) : Except PyError (ℚ × List ℚ) :=
  match error_rate (df.map (·.prediction)) (df.map (·.label)) with
  | .error err => .error err
  | .ok error_rate_local =>
    match tpr df with
    | .error err => .error err
    | .ok overall_tpr =>
      match (List.range numGroups).mapM (fun k =>
          (tpr (groupSubset df k)).map
            (fun tk => (overall_tpr - tpr_max_diff) - tk)) with
      | .error err => .error err
      | .ok cs => .ok (error_rate_local, cs)

/-- The dot product `np.dot` of two vectors. -/
def dot (xs ys : List ℚ) : ℚ :=
  (List.zipWith (fun a b => a * b) xs ys).sum

/-- The notebook's `_get_exp_error_rate_constraints(cand_dist,
error_rates_vector, constraints_matrix)` with `m` constraint columns:
the expected error `np.dot(cand_dist, error_rates_vector)` and the expected
violations `np.matmul(cand_dist, constraints_matrix)`. -/
def get_exp_error_rate_constraints (cand_dist errors : List ℚ)
    (matrix : List (List ℚ)) (m : ℕ) : ℚ × List ℚ :=
  (dot cand_dist errors,
    (List.range m).map (fun j => dot cand_dist (matrix.map (fun row => row.getD j 0))))

/-- The inner index-collection `while` loop of `training_generator`: starting
from the persisted `minibatch_start_index` and the accumulated
`minibatch_indices`, repeatedly append `range(start, num_rows)` (and wrap the
start index to 0) when `start + size - len(acc)` runs past the end, or
`range(start, start + size - len(acc))` otherwise, until `size` indices are
collected.  Returns the collected indices and the new start index. -/
def collectIndices (numRows size : ℕ) (hnr : 0 < numRows) (start : ℕ)
    (hs : start < numRows) (acc : List ℕ) : List ℕ × ℕ :=
  if h : acc.length < size then
    if hEnd : numRows ≤ start + (size - acc.length) then
      collectIndices numRows size hnr 0 hnr
        (acc ++ List.range' start (numRows - start))
    else
      collectIndices numRows size hnr (start + (size - acc.length))
        (lt_of_not_le hEnd) (acc ++ List.range' start (size - acc.length))
  else (acc, start)
termination_by size - acc.length
decreasing_by
  · simp only [List.length_append, List.length_range']
    omega
  · simp only [List.length_append, List.length_range']
    omega

/-- One minibatch of `training_generator`: the requested minibatch size is
first clamped by `minibatch_size = min(minibatch_size, num_rows)`, and the
indices are collected starting from the empty `minibatch_indices` list. -/
def trainingMinibatch (numRows requested : ℕ) (hnr : 0 < numRows)
    (start : ℕ) (hs : start < numRows) : List ℕ × ℕ :=
  collectIndices numRows (min requested numRows) hnr start hs []

end Fairness

/-- Modelled from the spec: the shape validation of
`ConstrainedMinimizationProblem` belongs to the library and is absent from
this repository's sources (the notebooks only subclass the interface).  Per
the spec it raises `ShapeMismatchError` when the true-constraints and
proxy-constraints vectors differ in length. -/
def check_constraints_shapes (cs ps : List NpFloat) : Except PyError Unit :=
  if cs.length = ps.length then .ok () else .error .shapeMismatchError

/-!
## Helper lemmas
-/

namespace Candidates

theorem lexLe_refl (errors : List ℚ) (violations : List (List ℚ)) (a : ℕ) :
    LexLe errors violations a a := by
  right
  exact ⟨rfl, le_refl _⟩

theorem lexLe_trans {errors : List ℚ} {violations : List (List ℚ)}
    {a b c : ℕ} (hab : LexLe errors violations a b)
    (hbc : LexLe errors violations b c) : LexLe errors violations a c := by
  rcases hab with h₁ | ⟨h₁, h₂⟩ <;> rcases hbc with h₃ | ⟨h₃, h₄⟩
  · exact Or.inl (h₁.trans h₃)
  · exact Or.inl (h₃ ▸ h₁)
  · exact Or.inl (h₁ ▸ h₃)
  · exact Or.inr ⟨h₁.trans h₃, h₂.trans h₄⟩

theorem lexLe_pickBetter_left (errors : List ℚ) (violations : List (List ℚ))
    (b j : ℕ) :
    LexLe errors violations (pickBetter errors violations b j) b := by
  unfold pickBetter
  split
  · exact Or.inl (by assumption)
  · split
    · rename_i h₂
      exact Or.inr ⟨h₂.1, le_of_lt h₂.2⟩
    · exact lexLe_refl _ _ _

theorem lexLe_pickBetter_right (errors : List ℚ) (violations : List (List ℚ))
    (b j : ℕ) :
    LexLe errors violations (pickBetter errors violations b j) j := by
  unfold pickBetter
  split
  · exact lexLe_refl _ _ _
  · split
    · exact lexLe_refl _ _ _
    · rename_i h₁ h₂
      rcases Nat.lt_or_ge (combinedRank errors violations b)
        (combinedRank errors violations j) with h | h
      · exact Or.inl h
      · have hcb : combinedRank errors violations b
            = combinedRank errors violations j :=
          le_antisymm (le_of_not_lt h₁) h
        refine Or.inr ⟨hcb, ?_⟩
        by_contra hlt
        exact h₂ ⟨hcb.symm, lt_of_not_le hlt⟩

theorem pickBetter_mem (errors : List ℚ) (violations : List (List ℚ))
    (b j : ℕ) : pickBetter errors violations b j = b
      ∨ pickBetter errors violations b j = j := by
  unfold pickBetter
  split
  · exact Or.inr rfl
  · split
    · exact Or.inr rfl
    · exact Or.inl rfl

theorem foldl_pickBetter_spec (errors : List ℚ)
    (violations : List (List ℚ)) :
    ∀ (l : List ℕ) (b0 : ℕ),
      (l.foldl (pickBetter errors violations) b0 = b0
          ∨ l.foldl (pickBetter errors violations) b0 ∈ l)
        ∧ LexLe errors violations (l.foldl (pickBetter errors violations) b0) b0
        ∧ ∀ j ∈ l,
            LexLe errors violations (l.foldl (pickBetter errors violations) b0) j := by
  intro l
  induction l with
  | nil =>
    intro b0
    exact ⟨Or.inl rfl, lexLe_refl _ _ _, by simp⟩
  | cons a t ih =>
    intro b0
    have hstep := ih (pickBetter errors violations b0 a)
    simp only [List.foldl_cons]
    refine ⟨?_, ?_, ?_⟩
    · rcases hstep.1 with h | h
      · rcases pickBetter_mem errors violations b0 a with hb | hb
        · exact Or.inl (h.trans hb)
        · exact Or.inr (by rw [h, hb]; exact List.mem_cons_self a t)
      · exact Or.inr (List.mem_cons_of_mem _ h)
    · exact lexLe_trans hstep.2.1 (lexLe_pickBetter_left errors violations b0 a)
    · intro j hj
      rcases List.mem_cons.mp hj with hj | hj
      · subst hj
        exact lexLe_trans hstep.2.1 (lexLe_pickBetter_right errors violations b0 j)
      · exact hstep.2.2 j hj

end Candidates

/-!
## Claim theorems
-/

open Candidates Simulated Fairness

/-- C1, counterexample: on errors `[0.1, 0.2, 0.05]` and violations
`[[0.0], [-0.01], [0.2]]`, the modelled `find_best_candidate_index` returns
index 0 (feasible, combined rank 1), not index 1 as the claim states:
the combined ranks are 1, 2, 2 for indices 0, 1, 2 and the minimum is
attained uniquely at index 0. -/
theorem C1_counterexample :
    Candidates.find_best_candidate_index [1/10, 2/10, 1/20]
        [[0], [-1/100], [2/10]] = 0
      ∧ Candidates.find_best_candidate_index [1/10, 2/10, 1/20]
        [[0], [-1/100], [2/10]] ≠ 1 := by
  with_unfolding_all decide

/-- C1, amended: for every non-empty errors vector,
`find_best_candidate_index` returns a valid index minimizing the combined
rank `max(error_rank, violation_rank)` (snapshots ranked by error ascending
and by clamped worst-case violation ascending, all-feasible snapshots tying
for the best feasibility rank), with ties in the combined rank broken by
lowest error; in particular, for errors `[0.1, 0.2, 0.05]` and violations
`[[0.0], [-0.01], [0.2]]` the returned index is 0. -/
theorem C1_best_candidate_index_spec (errors : List ℚ)
    (violations : List (List ℚ)) (hne : errors ≠ []) :
    Candidates.find_best_candidate_index errors violations < errors.length
      ∧ (∀ j < errors.length,
          Candidates.combinedRank errors violations
              (Candidates.find_best_candidate_index errors violations)
            ≤ Candidates.combinedRank errors violations j)
      ∧ (∀ j < errors.length,
          Candidates.combinedRank errors violations j
              = Candidates.combinedRank errors violations
                  (Candidates.find_best_candidate_index errors violations) →
          Candidates.errKey errors
              (Candidates.find_best_candidate_index errors violations)
            ≤ Candidates.errKey errors j)
      ∧ Candidates.find_best_candidate_index [1/10, 2/10, 1/20]
          [[0], [-1/100], [2/10]] = 0 := by
  obtain ⟨hmem, -, hall⟩ :=
    foldl_pickBetter_spec errors violations (List.range errors.length) 0
  have hn : 0 < errors.length := List.length_pos.mpr hne
  rw [show (List.range errors.length).foldl (pickBetter errors violations) 0
      = Candidates.find_best_candidate_index errors violations from rfl]
    at hmem hall
  refine ⟨?_, ?_, ?_, ?_⟩
  · rcases hmem with h0 | hmem
    · rw [h0]; exact hn
    · exact List.mem_range.mp hmem
  · intro j hj
    rcases hall j (List.mem_range.mpr hj) with h | ⟨h, _⟩
    · exact le_of_lt h
    · exact le_of_eq h
  · intro j hj hceq
    rcases hall j (List.mem_range.mpr hj) with h | ⟨_, he⟩
    · exact absurd hceq.symm (Nat.ne_of_lt h)
    · exact he
  · with_unfolding_all decide

/-- C1, witness: the amended theorem applied at the concrete spec example. -/
theorem C1_best_candidate_index_spec_witness :
    ([1/10, 2/10, 1/20] : List ℚ) ≠ []
      ∧ Candidates.find_best_candidate_index [1/10, 2/10, 1/20]
          [[0], [-1/100], [2/10]] < 3 := by
  refine ⟨?_, ?_⟩
  · with_unfolding_all decide
  · have h := C1_best_candidate_index_spec [1/10, 2/10, 1/20]
      [[0], [-1/100], [2/10]] (by with_unfolding_all decide)
    simpa using h.1

/-- If every label is zero, the notebook recall's true-positive numerator
vanishes. -/
theorem truePositiveSum_eq_zero {labels predictions : List ℚ}
    (h : ∀ l ∈ labels, l = 0) :
    Simulated.truePositiveSum labels predictions = 0 := by
  induction labels generalizing predictions with
  | nil => simp [Simulated.truePositiveSum]
  | cons a t ih =>
    cases predictions with
    | nil => simp [Simulated.truePositiveSum]
    | cons p ps =>
      have ha : a = 0 := h a (List.mem_cons_self a t)
      have ht := @ih ps (fun l hl => h l (List.mem_cons_of_mem a hl))
      simp only [Simulated.truePositiveSum, List.zipWith_cons_cons, List.sum_cons] at *
      rw [ha, ht]
      ring

/-- C2, counterexample: on data whose slice has no positively-labeled
example, the simulated notebook's `recall` returns the value nan without
raising anything, and the fairness notebook's `positive_prediction_rate`
raises `ZeroDivisionError` — neither raises the `DomainError` the claim
asserts (no `DomainError` exists anywhere in the sources). -/
theorem C2_counterexample :
    Simulated.recall [0] [1] = NpFloat.nan
      ∧ Fairness.positive_prediction_rate [1] [0]
          = Except.error PyError.zeroDivisionError
      ∧ PyError.zeroDivisionError ≠ PyError.domainError := by
  refine ⟨?_, ?_, ?_⟩
  · with_unfolding_all decide
  · with_unfolding_all decide
  · with_unfolding_all decide

/-- C2, amended: for every rate whose denominator slice matches no examples,
evaluation does not produce an ordinary rate value, but no `DomainError` is
raised: the numpy-division `recall` of the simulated notebook returns nan
without raising, and the Python-float-division `positive_prediction_rate` of
the fairness notebook raises `ZeroDivisionError`. -/
theorem C2_empty_denominator_behavior
    (labels predictions subset predictions₂ : List ℚ)
    (hlab : ∀ l ∈ labels, l = 0)
    (hsub : ∀ s ∈ subset, ¬ 0 < s) :
    Simulated.recall labels predictions = NpFloat.nan
      ∧ Fairness.positive_prediction_rate predictions₂ subset
          = Except.error PyError.zeroDivisionError := by
  constructor
  · have hsum : labels.sum = 0 := List.sum_eq_zero hlab
    rw [Simulated.recall, truePositiveSum_eq_zero hlab, hsum]
    simp [npDiv]
  · have hfilter : subset.filter (fun s => decide (0 < s)) = [] := by
      rw [List.filter_eq_nil_iff]
      intro s hs
      simpa using hsub s hs
    simp [Fairness.positive_prediction_rate, hfilter]

/-- C2, witness: the amended theorem applied at labels `[0, 0]` (no positive
example) and subset column `[0, -1]` (empty slice). -/
theorem C2_empty_denominator_behavior_witness :
    (∀ l ∈ ([0, 0] : List ℚ), l = 0)
      ∧ (∀ s ∈ ([0, -1] : List ℚ), ¬ 0 < s)
      ∧ Simulated.recall [0, 0] [1, -1] = NpFloat.nan
      ∧ Fairness.positive_prediction_rate [1, 1] [0, -1]
          = Except.error PyError.zeroDivisionError := by
  have h := C2_empty_denominator_behavior [0, 0] [1, -1] [0, -1] [1, 1]
    (by with_unfolding_all decide) (by with_unfolding_all decide)
  exact ⟨by with_unfolding_all decide, by with_unfolding_all decide, h.1, h.2⟩

/-- Decomposing a successful `mapM` over `Except`: every element's image
succeeded and lands at the same position of the output list. -/
theorem mapM_ok_get {ε α β : Type} (f : α → Except ε β) :
    ∀ (l : List α) (ys : List β), l.mapM f = Except.ok ys →
      ∀ k, (hk : k < l.length) →
        ∃ y, f (l.get ⟨k, hk⟩) = Except.ok y ∧ ys.get? k = some y := by
  intro l
  induction l with
  | nil =>
    intro ys h k hk
    exact absurd hk (by simp)
  | cons a t ih =>
    intro ys h k hk
    rw [List.mapM_cons] at h
    cases hfa : f a with
    | error e =>
      rw [hfa] at h
      simp [Bind.bind, Except.bind] at h
    | ok y =>
      rw [hfa] at h
      cases hmt : t.mapM f with
      | error e =>
        rw [hmt] at h
        simp [Bind.bind, Except.bind] at h
      | ok ys' =>
        rw [hmt] at h
        simp only [Bind.bind, Except.bind, pure, Except.pure, Except.ok.injEq] at h
        subst h
        cases k with
        | zero => exact ⟨y, hfa, rfl⟩
        | succ k' =>
          obtain ⟨y', hy', hys'⟩ := ih ys' hmt k' (by simpa using hk)
          exact ⟨y', hy', by simpa using hys'⟩

/-- C3: a constraint built as `rate >= bound` exposes the value
`bound - rate`: `ExampleProblem.constraints` equals
`recall_lower_bound - recall` (the notebook's own `recall` on the same
data), and the `k`-th entry of the fairness notebook's constraint list is
`(overall_tpr - tpr_max_diff) - tpr(group k)`. -/
theorem C3_constraint_sign_convention
    (labels predictions : List ℚ) (bound : ℚ) (r : ℚ)
    (df : List Fairness.Row) (numGroups : ℕ) (d e t : ℚ)
    (cs : List ℚ) (k : ℕ) (hk : k < numGroups)
    (hres : Fairness.get_error_rate_and_constraints df numGroups d
      = Except.ok (e, cs))
    (ht : Fairness.tpr df = Except.ok t)
    (hr : Simulated.recall labels predictions = NpFloat.val r) :
    Simulated.ExampleProblem.constraints labels predictions bound
        = npSub bound (Simulated.recall labels predictions)
      ∧ Simulated.ExampleProblem.constraints labels predictions bound
          = NpFloat.val (bound - r)
      ∧ ∃ tk, Fairness.tpr (Fairness.groupSubset df k) = Except.ok tk
          ∧ cs.get? k = some ((t - d) - tk) := by
  refine ⟨rfl, ?_, ?_⟩
  · show npSub bound (Simulated.recall labels predictions) = _
    rw [hr]
    rfl
  · rw [Fairness.get_error_rate_and_constraints] at hres
    split at hres
    · simp at hres
    · rename_i e₀ he
      split at hres
      · simp at hres
      · rename_i t₀ ht'
        split at hres
        · simp at hres
        · rename_i cs₀ hm
          rw [ht] at ht'
          injection ht' with ht''
          subst ht''
          simp only [Except.ok.injEq, Prod.mk.injEq] at hres
          obtain ⟨he₀, hcs⟩ := hres
          obtain ⟨y, hy, hget⟩ := mapM_ok_get _ (List.range numGroups) cs₀ hm k
            (by simpa using hk)
          rw [List.get_range] at hy
          cases htk : Fairness.tpr (Fairness.groupSubset df k) with
          | error err =>
            rw [htk] at hy
            simp [Except.map] at hy
          | ok tk =>
            rw [htk] at hy
            simp only [Except.map, Except.ok.injEq] at hy
            refine ⟨tk, rfl, ?_⟩
            rw [← hcs]
            rw [hget, hy]

/-- C3, witness: the sign convention evaluated on a one-row dataframe with
one protected group and on one-example simulated data with bound `0.9`. -/
theorem C3_constraint_sign_convention_witness :
    Fairness.get_error_rate_and_constraints [⟨1, 1, [1]⟩] 1 0
        = Except.ok (0, [0])
      ∧ Fairness.tpr [⟨1, 1, [1]⟩] = Except.ok 1
      ∧ Simulated.recall [1] [1] = NpFloat.val 1
      ∧ Simulated.ExampleProblem.constraints [1] [1] (9/10)
          = NpFloat.val (9/10 - 1) := by
  have h := C3_constraint_sign_convention [1] [1] (9/10) 1 [⟨1, 1, [1]⟩] 1 0 0 1
    [0] 0 (by norm_num) (by with_unfolding_all decide)
    (by with_unfolding_all decide) (by with_unfolding_all decide)
  exact ⟨by with_unfolding_all decide, by with_unfolding_all decide,
    by with_unfolding_all decide, h.2.1⟩

/-- C6: the true-constraints and proxy-constraints vectors of the
hand-written `ExampleProblem` have identical length (one entry each, both
derived from the single `recall >= bound` constraint), the modelled library
shape validation accepts them, and it raises `ShapeMismatchError` on every
pair of vectors of differing length. -/
theorem C6_constraint_vectors_aligned (labels predictions : List ℚ)
    (bound : ℚ) (cs ps : List NpFloat) (hne : cs.length ≠ ps.length) :
    (Simulated.ExampleProblem.constraintsVec labels predictions bound).length
        = (Simulated.ExampleProblem.proxyConstraintsVec
            labels predictions bound).length
      ∧ check_constraints_shapes
          (Simulated.ExampleProblem.constraintsVec labels predictions bound)
          (Simulated.ExampleProblem.proxyConstraintsVec
            labels predictions bound)
          = Except.ok ()
      ∧ check_constraints_shapes cs ps
          = Except.error PyError.shapeMismatchError := by
  refine ⟨rfl, rfl, ?_⟩
  simp [check_constraints_shapes, hne]

/-- C6, witness: the `ExampleProblem` vectors on one example pass the check;
the empty vector against a one-element vector raises `ShapeMismatchError`. -/
theorem C6_constraint_vectors_aligned_witness :
    (([] : List NpFloat).length ≠ [NpFloat.nan].length)
      ∧ check_constraints_shapes
          (Simulated.ExampleProblem.constraintsVec [1] [1] (9/10))
          (Simulated.ExampleProblem.proxyConstraintsVec [1] [1] (9/10))
          = Except.ok ()
      ∧ check_constraints_shapes [] [NpFloat.nan]
          = Except.error PyError.shapeMismatchError := by
  have h := C6_constraint_vectors_aligned [1] [1] (9/10) [] [NpFloat.nan]
    (by simp)
  exact ⟨by simp, h.2.1, h.2.2⟩

/-- C7: every metric evaluation of the notebooks is a pure function of its
inputs — two evaluations on equal inputs return equal results, for the true
and proxy values of `ExampleProblem` as well as for `error_rate`,
`positive_prediction_rate`, `tpr`, `recall` and `average_hinge_loss`. -/
theorem C7_metric_evaluation_deterministic
    (labels predictions labels' predictions' subset subset' : List ℚ)
    (df df' : List Fairness.Row) (bound : ℚ)
    (hl : labels = labels') (hp : predictions = predictions')
    (hs : subset = subset') (hdf : df = df') :
    Simulated.recall labels predictions
        = Simulated.recall labels' predictions'
      ∧ Simulated.average_hinge_loss labels predictions
          = Simulated.average_hinge_loss labels' predictions'
      ∧ Simulated.ExampleProblem.constraints labels predictions bound
          = Simulated.ExampleProblem.constraints labels' predictions' bound
      ∧ Simulated.ExampleProblem.proxy_constraints labels predictions bound
          = Simulated.ExampleProblem.proxy_constraints labels' predictions' bound
      ∧ Fairness.error_rate predictions labels
          = Fairness.error_rate predictions' labels'
      ∧ Fairness.positive_prediction_rate predictions subset
          = Fairness.positive_prediction_rate predictions' subset'
      ∧ Fairness.tpr df = Fairness.tpr df' := by
  subst hl hp hs hdf
  exact ⟨rfl, rfl, rfl, rfl, rfl, rfl, rfl⟩

/-- C7, witness: the determinism theorem applied at concrete equal inputs. -/
theorem C7_metric_evaluation_deterministic_witness :
    Simulated.recall [0, 1] [1, -1] = Simulated.recall [0, 1] [1, -1]
      ∧ Simulated.average_hinge_loss [0, 1] [1, -1]
          = Simulated.average_hinge_loss [0, 1] [1, -1]
      ∧ Simulated.ExampleProblem.constraints [0, 1] [1, -1] (9/10)
          = Simulated.ExampleProblem.constraints [0, 1] [1, -1] (9/10)
      ∧ Simulated.ExampleProblem.proxy_constraints [0, 1] [1, -1] (9/10)
          = Simulated.ExampleProblem.proxy_constraints [0, 1] [1, -1] (9/10)
      ∧ Fairness.error_rate [1, -1] [0, 1] = Fairness.error_rate [1, -1] [0, 1]
      ∧ Fairness.positive_prediction_rate [1, -1] [1, 0]
          = Fairness.positive_prediction_rate [1, -1] [1, 0]
      ∧ Fairness.tpr [⟨1, 1, [1]⟩] = Fairness.tpr [⟨1, 1, [1]⟩] :=
  C7_metric_evaluation_deterministic [0, 1] [1, -1] [0, 1] [1, -1] [1, 0]
    [1, 0] [⟨1, 1, [1]⟩] [⟨1, 1, [1]⟩] (9/10) rfl rfl rfl rfl

/-- The invariant of the minibatch index-collection loop: starting below the
requested size with all collected indices in range, the loop returns exactly
`size` indices, all in `[0, numRows)`. -/
theorem collectIndices_spec (numRows size : ℕ) (hnr : 0 < numRows)
    (start : ℕ) (hs : start < numRows) (acc : List ℕ)
    (hlen : acc.length ≤ size) (hmem : ∀ i ∈ acc, i < numRows) :
    (Fairness.collectIndices numRows size hnr start hs acc).1.length = size
      ∧ ∀ i ∈ (Fairness.collectIndices numRows size hnr start hs acc).1,
          i < numRows := by
  induction start, hs, acc using Fairness.collectIndices.induct numRows size hnr with
  | case1 start hs acc hlt hEnd ih =>
    rw [Fairness.collectIndices, dif_pos hlt, dif_pos hEnd]
    apply ih
    · simp only [List.length_append, List.length_range']
      omega
    · intro i hi
      rcases List.mem_append.mp hi with h | h
      · exact hmem i h
      · have := List.mem_range'_1.mp h
        omega
  | case2 start hs acc hlt hEnd ih =>
    rw [Fairness.collectIndices, dif_pos hlt, dif_neg hEnd]
    apply ih
    · simp only [List.length_append, List.length_range']
      omega
    · intro i hi
      rcases List.mem_append.mp hi with h | h
      · exact hmem i h
      · have := List.mem_range'_1.mp h
        omega
  | case3 start hs acc hge =>
    rw [Fairness.collectIndices, dif_neg hge]
    exact ⟨le_antisymm hlen (le_of_not_lt hge), hmem⟩

/-- C10: for every dataframe with at least one row and every requested
minibatch size, clamped to `min(minibatch_size, num_rows)`, the inner
index-collection loop of `training_generator` (a total function here, so it
terminates on every iteration) produces exactly the clamped number of
indices, each a valid position in `[0, num_rows)`. -/
theorem C10_minibatch_indices (numRows requested start : ℕ)
    (hnr : 0 < numRows) (hreq : 0 < requested) (hs : start < numRows) :
    (Fairness.trainingMinibatch numRows requested hnr start hs).1.length
        = min requested numRows
      ∧ ∀ i ∈ (Fairness.trainingMinibatch numRows requested hnr start hs).1,
          i < numRows :=
  collectIndices_spec numRows (min requested numRows) hnr start hs []
    (by simp) (by simp)

/-- C10, witness: five rows, requested size 3, start index 0. -/
theorem C10_minibatch_indices_witness :
    (Fairness.trainingMinibatch 5 3 (Nat.succ_pos 4) 0 (Nat.succ_pos 4)).1.length
        = min 3 5
      ∧ ∀ i ∈ (Fairness.trainingMinibatch 5 3 (Nat.succ_pos 4) 0
          (Nat.succ_pos 4)).1, i < 5 :=
  C10_minibatch_indices 5 3 0 (Nat.succ_pos 4) (Nat.succ_pos 2) (Nat.succ_pos 4)

/-- Appending an example with prediction exactly 0 adds one to the
`error_rate` numerator, whatever its label is. -/
theorem errorNumerator_append_zero (predictions labels : List ℚ) (l : ℚ)
    (hlen : predictions.length = labels.length) :
    Fairness.errorNumerator (predictions ++ [0]) (labels ++ [l])
      = Fairness.errorNumerator predictions labels + 1 := by
  unfold Fairness.errorNumerator
  rw [List.zipWith_append _ _ _ _ _ hlen, List.sum_append]
  simp

/-- The `error_rate` numerator is a sum of 0/1 indicators, hence
nonnegative. -/
theorem errorNumerator_nonneg : ∀ (predictions labels : List ℚ),
    0 ≤ Fairness.errorNumerator predictions labels := by
  intro predictions
  induction predictions with
  | nil =>
    intro labels
    simp [Fairness.errorNumerator]
  | cons p ps ih =>
    intro labels
    cases labels with
    | nil => simp [Fairness.errorNumerator]
    | cons l ls =>
      have hrest := ih ls
      simp only [Fairness.errorNumerator, List.zipWith_cons_cons,
        List.sum_cons] at *
      have hterm : (0 : ℚ)
          ≤ if (if 0 < l then (1 : ℚ) else -1) * p ≤ 0 then 1 else 0 := by
        split <;> split <;> norm_num
      linarith

/-- Appending a label with a zero prediction leaves the simulated notebook's
true-positive count unchanged (`predictions > 0` excludes it). -/
theorem truePositiveSum_append_zero (labels predictions : List ℚ) (l₀ : ℚ)
    (hlen : labels.length = predictions.length) :
    Simulated.truePositiveSum (labels ++ [l₀]) (predictions ++ [0])
      = Simulated.truePositiveSum labels predictions := by
  unfold Simulated.truePositiveSum
  rw [List.zipWith_append _ _ _ _ _ hlen, List.sum_append]
  simp

/-- A rate strictly below one strictly increases when numerator and
denominator both grow by one. -/
theorem rate_step_lt {N n : ℚ} (hn : 0 < n) (hN : 0 ≤ N) (h : N / n < 1) :
    N / n < (N + 1) / (n + 1) := by
  have hlt : N < n := (div_lt_one hn).mp h
  rw [div_lt_div_iff hn (by linarith)]
  nlinarith

/-- C9, counterexample: appending a zero-prediction positively-labeled
example does not always increase the reported rates: on a dataframe that
already consists of one such example (error rate 1, TPR 1), adding a second
one leaves both reported values unchanged at 1. -/
theorem C9_counterexample :
    Fairness.error_rate [0, 0] [1, 1] = Fairness.error_rate [0] [1]
      ∧ Fairness.tpr [⟨0, 1, []⟩, ⟨0, 1, []⟩] = Fairness.tpr [⟨0, 1, []⟩]
      ∧ Fairness.error_rate [0] [1] = Except.ok 1
      ∧ Fairness.tpr [⟨0, 1, []⟩] = Except.ok 1 := by
  refine ⟨?_, ?_, ?_, ?_⟩ <;> with_unfolding_all decide

/-- C9, amended: at the decision boundary the metrics disagree about a
prediction of exactly 0: the fairness notebook's `error_rate` counts it as
misclassified regardless of its label, `tpr` counts a positively-labeled
such example as a true positive, and the simulated notebook's `recall`
excludes it from the true positives; hence one zero-prediction positive
example is counted in both the error-rate numerator and the TPR numerator,
and appending it strictly increases both reported rates whenever they were
below 1. -/
theorem C9_zero_prediction_boundary
    (labels predictions : List ℚ) (l₀ : ℚ)
    (df : List Fairness.Row) (r : Fairness.Row)
    (hp : r.prediction = 0) (hl : 1/2 < r.label)
    (hlen : predictions.length = labels.length)
    (e t : ℚ)
    (he : Fairness.error_rate (df.map (·.prediction)) (df.map (·.label))
      = Except.ok e)
    (he1 : e < 1)
    (ht : Fairness.tpr df = Except.ok t) (ht1 : t < 1) :
    (∀ l : ℚ, Fairness.errorNumerator (predictions ++ [0]) (labels ++ [l])
        = Fairness.errorNumerator predictions labels + 1)
      ∧ Fairness.tprNumerator (df ++ [r]) = Fairness.tprNumerator df + 1
      ∧ Simulated.truePositiveSum (labels ++ [l₀]) (predictions ++ [0])
          = Simulated.truePositiveSum labels predictions
      ∧ (∃ e', Fairness.error_rate ((df ++ [r]).map (·.prediction))
            ((df ++ [r]).map (·.label)) = Except.ok e' ∧ e < e')
      ∧ (∃ t', Fairness.tpr (df ++ [r]) = Except.ok t' ∧ t < t') := by
  have hp' : (0 : ℚ) ≤ r.prediction := by rw [hp]
  have hl2 : (2⁻¹ : ℚ) < r.label := by
    calc (2⁻¹ : ℚ) = 1/2 := by norm_num
    _ < r.label := hl
  have hnum : Fairness.tprNumerator (df ++ [r])
      = Fairness.tprNumerator df + 1 := by
    unfold Fairness.tprNumerator
    rw [List.filter_append]
    simp only [List.length_append]
    congr 1
    simp [List.filter, hp', hl2]
  refine ⟨fun l => errorNumerator_append_zero predictions labels l hlen, hnum,
    truePositiveSum_append_zero labels predictions l₀ hlen.symm, ?_, ?_⟩
  · rw [Fairness.error_rate] at he
    split at he
    · simp at he
    · rename_i hne
      simp only [Except.ok.injEq] at he
      have hPL : (df.map (·.prediction)).length
          = (df.map (·.label)).length := by simp
      have hnn : 0 < (df.map (·.prediction)).length := Nat.pos_of_ne_zero hne
      have hn : (0 : ℚ) < ((df.map (·.prediction)).length : ℚ) := by
        exact_mod_cast hnn
      have hmap : (df ++ [r]).map (·.prediction)
          = df.map (·.prediction) ++ [0] := by simp [hp]
      have hmapl : (df ++ [r]).map (·.label)
          = df.map (·.label) ++ [r.label] := by simp
      have hne2 : (df.map (·.prediction) ++ [(0 : ℚ)]).length ≠ 0 := by simp
      rw [Fairness.error_rate, hmap, hmapl, if_neg hne2]
      refine ⟨_, rfl, ?_⟩
      rw [errorNumerator_append_zero _ _ _ hPL]
      have hlen2 : ((df.map (·.prediction) ++ [(0 : ℚ)]).length : ℚ)
          = ((df.map (·.prediction)).length : ℚ) + 1 := by
        rw [List.length_append, List.length_singleton]
        push_cast
        ring
      rw [hlen2, ← he]
      exact rate_step_lt hn (errorNumerator_nonneg _ _)
        (by rw [he]; exact he1)
  · rw [Fairness.tpr] at ht
    split at ht
    · simp at ht
    · rename_i hne
      simp only [Except.ok.injEq] at ht
      have hden : Fairness.tprDenominator (df ++ [r])
          = Fairness.tprDenominator df + 1 := by
        unfold Fairness.tprDenominator
        rw [List.filter_append]
        simp only [List.length_append]
        congr 1
        simp [List.filter, hl2]
      have hdpos : (0 : ℚ) < (Fairness.tprDenominator df : ℚ) := by
        exact_mod_cast Nat.pos_of_ne_zero hne
      rw [Fairness.tpr, hden, hnum,
        if_neg (by omega : ¬(Fairness.tprDenominator df + 1 = 0))]
      refine ⟨_, rfl, ?_⟩
      push_cast
      rw [← ht]
      exact rate_step_lt hdpos (by positivity) (by rw [ht]; exact ht1)

/-- C9, witness: a two-row dataframe with error rate and TPR both 1/2;
appending the zero-prediction positive row strictly increases both. -/
theorem C9_zero_prediction_boundary_witness :
    ((⟨0, 1, []⟩ : Fairness.Row).prediction = 0)
      ∧ (1/2 : ℚ) < (⟨0, 1, []⟩ : Fairness.Row).label
      ∧ (∃ e', Fairness.error_rate
            ((([⟨1, 1, []⟩, ⟨-1, 1, []⟩] : List Fairness.Row)
              ++ ([⟨0, 1, []⟩] : List Fairness.Row)).map (·.prediction))
            ((([⟨1, 1, []⟩, ⟨-1, 1, []⟩] : List Fairness.Row)
              ++ ([⟨0, 1, []⟩] : List Fairness.Row)).map (·.label))
            = Except.ok e' ∧ (1/2 : ℚ) < e')
      ∧ (∃ t', Fairness.tpr (([⟨1, 1, []⟩, ⟨-1, 1, []⟩] : List Fairness.Row)
            ++ ([⟨0, 1, []⟩] : List Fairness.Row))
            = Except.ok t' ∧ (1/2 : ℚ) < t') := by
  have h := C9_zero_prediction_boundary [1] [1] 1
    [⟨1, 1, []⟩, ⟨-1, 1, []⟩] ⟨0, 1, []⟩ rfl (by norm_num) rfl (1/2) (1/2)
    (by with_unfolding_all decide) (by norm_num)
    (by with_unfolding_all decide) (by norm_num)
  exact ⟨rfl, by norm_num, h.2.2.2.1, h.2.2.2.2⟩
